import Mathlib

/-!
# Verification of the batch-dispatch and reconciliation core of `music_tagger.py`

This file gives a shallow embedding, in Lean 4, of the pure and observable
behaviour of the source file `music_tagger.py`, and proves (or refutes)
the specified properties of:

* the batching step of `main` (slicing the track list into batches of 10),
* `get_chatgpt_metadata` (retry/backoff loop, response extraction, parsing),
* the batch-scheduler result collection loop of `main`,
* the per-track reconciliation and tag-merge step of `main` plus
  `update_genre_tag`,
* `find_audio_files` and `extract_metadata`.

External effects (the OpenAI client call, `json.loads`, `re.search`,
`random.uniform`, the filesystem, mutagen) are modelled as oracle
parameters: a function of the appropriate type stands for the outcome of
each effect, and all theorems quantify over those oracles.  Wall-clock
waiting (`time.sleep`) is observed as the list of slept durations, in
order.  Float arithmetic on delays is modelled over `ℚ`.
-/

namespace MusicTagger

/-! ## Data model

`extract_metadata` produces a Python dict with optional keys
`artist`, `album`, `title`; we model it as a structure of `Option`s
(a key being absent from the dict corresponds to `none`). -/

/-- The metadata dict built by `extract_metadata`. -/
structure Metadata where
  artist : Option String
  album : Option String
  title : Option String
deriving DecidableEq

/-- A track record as built in `main`: `{'file_path': ..., 'metadata': ...}`. -/
structure Track where
  file_path : String
  metadata : Metadata
deriving DecidableEq

/-- The value of a `region` field in the model's JSON answer: the code
distinguishes a JSON list from a scalar (`isinstance(metadata['region'], list)`). -/
inductive RegionVal where
  | one (s : String)
  | many (l : List String)
deriving DecidableEq

/-- One entry of the parsed service response for one track key.  Any field
may be absent (`if 'genres' in metadata:` etc. in `main`). -/
structure TagResult where
  genres : Option (List String)
  region : Option RegionVal
  era : Option String
deriving DecidableEq

/-- A parsed JSON object, in key insertion order, as returned by
`json.loads` inside `get_chatgpt_metadata`. -/
def Dict : Type := List (String × TagResult)

instance : DecidableEq Dict := inferInstanceAs (DecidableEq (List (String × TagResult)))

/-- The accumulated `ai_metadata` mapping of `main`, keyed by track key.
Python-dict lookup semantics: latest insertion wins. -/
def ResultMap : Type := String → Option TagResult

/-- `track_key = f"{artist} - {title}"` with `.get(..., 'Unknown')` defaults
(`main`, result loop). -/
def trackKey (m : Metadata) : String :=
  m.artist.getD "Unknown" ++ " - " ++ m.title.getD "Unknown"

/-! ## Order-preserving deduplication

Both `main` (`list(dict.fromkeys(tags))`) and `update_genre_tag`
(`list(dict.fromkeys(all_tags))`) deduplicate a list of tags keeping the
first occurrence of each element, in order.  `dict.fromkeys` inserts keys
left to right, ignoring keys already present; `dedupFirstAux` carries the
set of already-inserted keys. -/

/-- Tail of `dict.fromkeys` iteration: `seen` holds the keys inserted so far. -/
def dedupFirstAux [DecidableEq α] (seen : List α) : List α → List α
  | [] => []
  | a :: l => if a ∈ seen then dedupFirstAux seen l else a :: dedupFirstAux (a :: seen) l

/-- `list(dict.fromkeys(l))`: order-preserving, first-occurrence deduplication. -/
def dedupFirst [DecidableEq α] (l : List α) : List α := dedupFirstAux [] l

/-! ## Batching (`main`, lines 349–358)

```python
batch_size = 10
total_batches = (len(tracks) + batch_size - 1) // batch_size
batches = []
for i in range(0, len(tracks), batch_size):
    batch = tracks[i:i + batch_size]
    batch_num = i // batch_size + 1
    batches.append((batch, batch_num))
```

`range(0, N, 10)` enumerates `i = 10*k` for `k < ⌈N/10⌉`; the slice
`tracks[i:i+10]` is `(tracks.drop i).take 10` and `i // 10 + 1 = k + 1`. -/

/-- `batch_size = 10` in `main`. -/
def batchSize : Nat := 10

/-- `total_batches = (len(tracks) + batch_size - 1) // batch_size`. -/
def totalBatches (tracks : List Track) : Nat :=
  (tracks.length + batchSize - 1) / batchSize

/-- The `batches` list of `main`: pairs of a slice of up to 10 tracks and
its 1-based batch number. -/
def makeBatches (tracks : List Track) : List (List Track × Nat) :=
  (List.range (totalBatches tracks)).map
    (fun k => ((tracks.drop (batchSize * k)).take batchSize, k + 1))

/-! ## String helpers used by `get_chatgpt_metadata` -/

/-- `pat in s` for Python strings: `pat.data` occurs contiguously in `s.data`. -/
def strContains (s pat : String) : Bool :=
  s.data.tails.any (fun t => pat.data.isPrefixOf t)

/-- Python's `str.strip()`: drop whitespace from both ends. -/
def pyStrip (s : String) : String :=
  ⟨((s.data.dropWhile Char.isWhitespace).reverse.dropWhile Char.isWhitespace).reverse⟩

/-- The JSON-extraction step of `get_chatgpt_metadata`:

```python
start_idx = response_text.find('{')
end_idx = response_text.rfind('}') + 1
if start_idx >= 0 and end_idx > start_idx:
    json_text = response_text[start_idx:end_idx]
```

returns the substring from the first `'{'` to the last `'}'` inclusive, or
`none` when `find` fails (`-1`) or `rfind + 1` is not past `find`. -/
def extractJson (s : String) : Option String :=
  let cs := s.data
  match cs.findIdx? (fun c => c = '{') with
  | none => none
  | some i =>
    match cs.reverse.findIdx? (fun c => c = '}') with
    | none => none
    | some rj =>
      let j := cs.length - 1 - rj
      if i < j + 1 then some ⟨(cs.drop i).take (j + 1 - i)⟩ else none

/-! ## `get_chatgpt_metadata` (lines 76–171)

The function makes up to `max_retries = 5` attempts.  Each attempt calls
the completion endpoint once; we model the outcome of attempt `a` with an
oracle `trace a`:

* `success text` — the call returned and `response.choices[0].message.content`
  is the string `text`;
* `failure e` — the call (or the attribute access on the response) raised
  an exception whose `str()` is `e`.

`json.loads` is the oracle `parse` (`Except.error m` standing for a raised
`JSONDecodeError` with `str()` equal to `m` — note that in the source this
exception is caught by the *same* `except` block as API errors), and
`re.search(r'Please try again in (\d+)ms', e)` is the oracle `regexMs`
(`some n` = a match with group `n`).  `random.uniform(0, 1)` at attempt
`a` is the oracle `jitter a`.  The run is observed as the returned
mapping, the list of `time.sleep` durations in order, and the number of
completion calls made. -/

/-- Outcome of one completion call attempt. -/
inductive Outcome where
  | success (text : String)
  | failure (errorStr : String)
deriving DecidableEq

/-- Observable result of one `get_chatgpt_metadata` run. -/
structure GcmRun where
  result : Dict
  waits : List ℚ
  calls : Nat
deriving DecidableEq

/-- `max_retries = 5`. -/
def maxRetries : Nat := 5

/-- `base_delay = 1.0`. -/
def baseDelay : ℚ := 1

/-- `"rate_limit_exceeded" in error_str or "429" in error_str`. -/
def rateLimited (e : String) : Bool :=
  strContains e "rate_limit_exceeded" || strContains e "429"

/-- The server-suggested wait in seconds: applied only when
`"Please try again in" in error_str` and the regex matched, in which case
the suggestion is `int(match.group(1)) / 1000.0`. -/
def suggestedWait (regexMs : String → Option Nat) (e : String) : Option ℚ :=
  if strContains e "Please try again in" then (regexMs e).map (fun n => (n : ℚ) / 1000)
  else none

/-- The `except` block of `get_chatgpt_metadata` at a given attempt:
classify the error, and on a retryable rate limit sleep
`max(base_delay * 2**attempt + random.uniform(0, 1), suggested)` and run
the continuation (the next loop iteration); otherwise return `{}`. -/
def gcmStep (regexMs : String → Option Nat) (jitter : Nat → ℚ) (attempt : Nat)
    (e : String) (rest : Unit → GcmRun) : GcmRun :=
  if rateLimited e then
    if attempt < maxRetries - 1 then
      let w0 := baseDelay * 2 ^ attempt + jitter attempt
      let w := match suggestedWait regexMs e with
        | some s => max w0 s
        | none => w0
      let r := rest ()
      ⟨r.result, w :: r.waits, r.calls + 1⟩
    else ⟨[], [], 1⟩
  else ⟨[], [], 1⟩

/-- The `for attempt in range(max_retries)` loop of `get_chatgpt_metadata`.
`fuel` is the number of remaining iterations (`max_retries - attempt`);
the `fuel = 0` case is the `return {}` after the loop. -/
def gcmGo (trace : Nat → Outcome) (parse : String → Except String Dict)
    (regexMs : String → Option Nat) (jitter : Nat → ℚ) : Nat → Nat → GcmRun
  | 0, _ => ⟨[], [], 0⟩
  | fuel + 1, attempt =>
    match trace attempt with
    | .failure e => gcmStep regexMs jitter attempt e
        (fun _ => gcmGo trace parse regexMs jitter fuel (attempt + 1))
    | .success text =>
      match extractJson (pyStrip text) with
      | some sub =>
        match parse sub with
        | .ok m => ⟨m, [], 1⟩
        | .error emsg => gcmStep regexMs jitter attempt emsg
            (fun _ => gcmGo trace parse regexMs jitter fuel (attempt + 1))
      | none => ⟨[], [], 1⟩

/-- `get_chatgpt_metadata(tracks, api_key)`.  The prompt built from the
batch's tracks only feeds the external call, so the batch contents do not
appear in the observable control flow modelled here. -/
def get_chatgpt_metadata (trace : Nat → Outcome) (parse : String → Except String Dict)
    (regexMs : String → Option Nat) (jitter : Nat → ℚ) : GcmRun :=
  gcmGo trace parse regexMs jitter maxRetries 0

/-- The parse outcome of attempt `a` considered in isolation: `some m`
iff the attempt's completion call succeeded, a JSON substring was found,
and `json.loads` succeeded with `m`. -/
def attemptParsed (trace : Nat → Outcome) (parse : String → Except String Dict)
    (a : Nat) : Option Dict :=
  match trace a with
  | .failure _ => none
  | .success text =>
    match extractJson (pyStrip text) with
    | some sub =>
      match parse sub with
      | .ok m => some m
      | .error _ => none
    | none => none

/-- The error string raised at attempt `a` (either the call's exception or
the decode error raised by `json.loads`), if any. -/
def attemptErrorStr (trace : Nat → Outcome) (parse : String → Except String Dict)
    (a : Nat) : Option String :=
  match trace a with
  | .failure e => some e
  | .success text =>
    match extractJson (pyStrip text) with
    | some sub =>
      match parse sub with
      | .ok _ => none
      | .error emsg => some emsg
    | none => none

/-- The wait duration at attempt `a` as worded in the specification:
the maximum of `base_delay * 2**attempt` plus the jitter and any
server-suggested wait parsed from the attempt's error message. -/
def claimWait (trace : Nat → Outcome) (parse : String → Except String Dict)
    (regexMs : String → Option Nat) (jitter : Nat → ℚ) (a : Nat) : ℚ :=
  let e := (attemptErrorStr trace parse a).getD ""
  match suggestedWait regexMs e with
  | some s => max (baseDelay * 2 ^ a + jitter a) s
  | none => baseDelay * 2 ^ a + jitter a

/-! ## Batch scheduler result collection (`main`, lines 363–378)

```python
for future in as_completed(future_to_batch):
    try:
        batch_metadata = future.result()
        ai_metadata.update(batch_metadata)
    except Exception as e:
        print(f"Error processing batch {batch_num}: {e}")
```

We model the loop by the list of batch outcomes in completion order:
`Except.ok m` is a batch whose `future.result()` returned the mapping `m`,
`Except.error e` one whose resolution raised.  `dict.update` inserts the
pairs of `m` in order, overwriting existing keys. -/

/-- `d[k] = v` on the accumulated mapping. -/
def mapInsert (acc : ResultMap) (k : String) (v : TagResult) : ResultMap :=
  fun q => if q = k then some v else acc q

/-- `ai_metadata.update(m)`: insert every pair of `m` in order. -/
def mapUpdate (acc : ResultMap) (m : Dict) : ResultMap :=
  m.foldl (fun a p => mapInsert a p.1 p.2) acc

/-- The whole collection loop: fold the outcomes in completion order,
a raised outcome contributing nothing. -/
def collectResults (outcomes : List (Except String Dict)) : ResultMap :=
  outcomes.foldl
    (fun acc o => match o with
      | .ok m => mapUpdate acc m
      | .error _ => acc)
    (fun _ => none)

/-! ## Per-track reconciliation and tag merge (`main`, lines 381–419, and
`update_genre_tag`, lines 174–240) -/

/-- Flatten one track's result into the `tags` list of `main`:
genres (if present, in order), then region (a scalar appended as one
value, a list extended), then era (if present, as one value). -/
def flattenTags (r : TagResult) : List String :=
  (match r.genres with
    | some gs => gs
    | none => []) ++
  (match r.region with
    | some (.many l) => l
    | some (.one s) => [s]
    | none => []) ++
  (match r.era with
    | some e => [e]
    | none => [])

/-- What `main` reports for one track after all batches merged. -/
inductive TrackOutcome where
  | wrote (tags : List String)
  | noTags
  | noMeta
deriving DecidableEq

/-- The body of the result loop of `main` for one track: look the track
key up in `ai_metadata`; absent key → "No AI metadata found"; present key
with no flattened tags → "No tags found"; otherwise deduplicate and hand
the list to `update_genre_tag` (or the dry-run report). -/
def reconcileTrack (ai : ResultMap) (t : Track) : TrackOutcome :=
  match ai (trackKey t.metadata) with
  | none => .noMeta
  | some r =>
    let tags := flattenTags r
    if tags.isEmpty then .noTags else .wrote (dedupFirst tags)

/-- The whole result loop: one outcome per input track, in order. -/
def reconcileAll (ai : ResultMap) (tracks : List Track) : List TrackOutcome :=
  tracks.map (reconcileTrack ai)

/-- The tag list persisted by `update_genre_tag(file_path, tags)`:
`existingGenres` is the list parsed from the file's current genre field
(split on `' - '`, an external read modelled as a parameter), and the
written genre string is `' - '.join` of the returned list:

```python
all_tags = existing_genres + tags
unique_tags = list(dict.fromkeys(all_tags))
```
-/
def update_genre_tag (existingGenres : List String) (tags : List String) : List String :=
  dedupFirst (existingGenres ++ tags)

/-! ## `find_audio_files` (lines 243–277)

The filesystem is an oracle: `isFile`/`isDir` answer `Path.is_file()` /
`Path.is_dir()`, `rglob` lists `path_obj.rglob('*')` in traversal order,
`suffix` is `Path(...).suffix`, and `created` is the creation timestamp
(`st_birthtime`/`st_ctime`), `none` standing for the `OSError`
/`AttributeError` that makes the loop skip the file. -/

/-- Filesystem oracle. -/
structure FileSystem where
  isFile : String → Bool
  isDir : String → Bool
  rglob : String → List String
  suffix : String → String
  created : String → Option Int

/-- `audio_extensions`. -/
def audioExtensions : List String :=
  [".mp3", ".m4a", ".flac", ".wav", ".aac", ".ogg", ".wma"]

/-- `find_audio_files(path, since_date)`.  A direct file argument is
returned as a singleton before any extension or date filtering; a
directory is walked, filtered on extension (and on creation date when
`since_date` is given, skipping files whose creation time is unavailable),
and the result sorted. -/
def find_audio_files (fs : FileSystem) (path : String) (sinceDate : Option Int) : List String :=
  if fs.isFile path then [path]
  else if !fs.isDir path then []
  else
    let files := (fs.rglob path).filter (fun f =>
      (audioExtensions.contains (fs.suffix f).toLower) &&
      (match sinceDate with
        | none => true
        | some d =>
          match fs.created f with
          | some c => decide (d ≤ c)
          | none => false))
    files.mergeSort (fun a b => decide (a ≤ b))

/-! ## `extract_metadata` (lines 36–67)

`MutagenFile(file_path)` is an oracle: it may return `None`
(unrecognized format), raise, or produce an audio object modelled by its
tag-lookup function.  A looked-up tag value is either a scalar or a list
(the code branches on `isinstance(..., list)`); Python truthiness of the
value decides the `or` chains and the `if artist:` guards, modelled as:
a scalar is truthy iff non-empty as a string, a list iff non-empty. -/

/-- A tag value as seen by `audio_file.get(...)`. -/
inductive TagVal where
  | vstr (s : String)
  | vlist (l : List String)
deriving DecidableEq

/-- Python truthiness of a tag value. -/
def tagTruthy : TagVal → Bool
  | .vstr s => !(s == "")
  | .vlist l => !l.isEmpty

/-- `str(v[0]) if isinstance(v, list) else str(v)`. -/
def renderTag : TagVal → String
  | .vstr s => s
  | .vlist l => l.headD ""

/-- Outcome of `MutagenFile(file_path)`. -/
inductive MutagenResult where
  | noFile
  | err (msg : String)
  | audio (get : String → Option TagVal)

/-- The `a or b or c or d` chain over `audio_file.get(...)` results:
first truthy value wins, falsy values (including `None`) fall through. -/
def orChain (get : String → Option TagVal) : List String → Option TagVal
  | [] => none
  | k :: ks =>
    match get k with
    | some v => if tagTruthy v then some v else orChain get ks
    | none => orChain get ks

/-- Keys tried for the artist: `'TPE1'`, `'\xa9ART'`, `'ARTIST'`, `'artist'`. -/
def artistKeys : List String := ["TPE1", "©ART", "ARTIST", "artist"]

/-- Keys tried for the album. -/
def albumKeys : List String := ["TALB", "©alb", "ALBUM", "album"]

/-- Keys tried for the title. -/
def titleKeys : List String := ["TIT2", "©nam", "TITLE", "title"]

/-- `extract_metadata(file_path)`: `none` when `MutagenFile` returned
`None` or raised; otherwise the (possibly empty) metadata dict. -/
def extract_metadata : MutagenResult → Option Metadata
  | .noFile => none
  | .err _ => none
  | .audio get =>
    some ⟨(orChain get artistKeys).map renderTag,
          (orChain get albumKeys).map renderTag,
          (orChain get titleKeys).map renderTag⟩

/-- The metadata dict with no keys. -/
def emptyMetadata : Metadata := ⟨none, none, none⟩

/-- Python truthiness of the metadata dict in `main`'s `if metadata:`. -/
def metaNonempty (m : Metadata) : Bool :=
  m.artist.isSome || m.album.isSome || m.title.isSome

/-- The track-collection loop of `main` (lines 331–344): a file
contributes a track iff `extract_metadata` produced a truthy (non-empty)
dict; otherwise only a warning is printed. -/
def buildTracks (reader : String → MutagenResult) (files : List String) : List Track :=
  files.filterMap (fun fp =>
    match extract_metadata (reader fp) with
    | some md => if metaNonempty md then some ⟨fp, md⟩ else none
    | none => none)

/-! ## Concrete oracle instantiations used to settle refuted claims -/

/-- A run whose first completion call is rejected with a rate-limit error
carrying a server-suggested wait of 100000 ms, and whose later calls are
rejected with a bare 429 error. -/
def c4xTrace : Nat → Outcome :=
  fun a => if a = 0 then .failure "429 Please try again in 100000ms" else .failure "429"

/-- The `re.search` oracle consistent with `c4xTrace`: the regex matches
exactly on the first error message, with group value 100000. -/
def c4xRegex : String → Option Nat :=
  fun e => if e = "429 Please try again in 100000ms" then some 100000 else none

/-- A run whose first completion call returns a response whose extracted
JSON substring fails to parse, and whose second call returns a response
that parses fine. -/
def c5xTrace : Nat → Outcome :=
  fun a => if a = 0 then .success "{x}" else .success "{ok2}"

/-- The `json.loads` oracle consistent with `c5xTrace`: parsing the first
response's substring raises a decode error whose rendered position
happens to contain the substring `429`; anything else parses. -/
def c5xParse : String → Except String Dict :=
  fun s => if s = "{x}" then .error "Expecting value: line 1 column 430 (char 429)"
    else .ok [("k", ⟨some ["House"], none, none⟩)]

/-! ## Deduplication lemmas -/

/-- Re-running `dict.fromkeys` with a larger seen-set is absorbed. -/
theorem dedupFirstAux_absorb [DecidableEq α] :
    ∀ (l : List α) (seen seen' : List α), seen ⊆ seen' →
      dedupFirstAux seen' (dedupFirstAux seen l) = dedupFirstAux seen' l
  | [], _, _, _ => rfl
  | a :: t, seen, seen', h => by
    by_cases ha : a ∈ seen
    · have ha' : a ∈ seen' := h ha
      simp only [dedupFirstAux, if_pos ha, if_pos ha']
      exact dedupFirstAux_absorb t seen seen' h
    · simp only [dedupFirstAux, if_neg ha]
      by_cases hb : a ∈ seen'
      · simp only [dedupFirstAux, if_pos hb]
        exact dedupFirstAux_absorb t (a :: seen) seen' (List.cons_subset.mpr ⟨hb, h⟩)
      · simp only [dedupFirstAux, if_neg hb, List.cons.injEq, true_and]
        exact dedupFirstAux_absorb t (a :: seen) (a :: seen') (List.cons_subset_cons a h)

/-- Deduplicating the tail of a concatenation first does not change the
result of deduplicating the whole concatenation. -/
theorem dedupFirstAux_append_absorb [DecidableEq α] :
    ∀ (xs ys : List α) (seen seen' : List α), seen ⊆ seen' →
      dedupFirstAux seen' (xs ++ dedupFirstAux seen ys) = dedupFirstAux seen' (xs ++ ys)
  | [], ys, seen, seen', h => dedupFirstAux_absorb ys seen seen' h
  | a :: t, ys, seen, seen', h => by
    by_cases hb : a ∈ seen'
    · simp only [List.cons_append, dedupFirstAux, if_pos hb]
      exact dedupFirstAux_append_absorb t ys seen seen' h
    · simp only [List.cons_append, dedupFirstAux, if_neg hb, List.cons.injEq, true_and]
      exact dedupFirstAux_append_absorb t ys seen (a :: seen')
        (h.trans (List.subset_cons_self a seen'))

/-- `dedupFirst (l ++ dedupFirst m) = dedupFirst (l ++ m)`. -/
theorem dedupFirst_append_dedupFirst [DecidableEq α] (l m : List α) :
    dedupFirst (l ++ dedupFirst m) = dedupFirst (l ++ m) :=
  dedupFirstAux_append_absorb l m [] [] (List.Subset.refl [])

/-- C8: Tag-list deduplication is idempotent: the order-preserving
first-occurrence deduplication used in `main` and `update_genre_tag`
(`list(dict.fromkeys(...))`) applied twice to any list of tag strings
yields the same ordered, duplicate-free list as applying it once. -/
theorem dedupFirst_idempotent (l : List String) :
    dedupFirst (dedupFirst l) = dedupFirst l :=
  dedupFirstAux_absorb l [] [] (List.Subset.refl [])

/-- C3: for a track whose key resolves in the final mapping to
`genres = [g1, g2]`, `region = [r1]`, `era = e`, `main` hands
`dedupFirst [g1, g2, r1, e]` to `update_genre_tag`, and the tag list
ultimately written is the file's existing tags in order followed by
`[g1, g2, r1, e]`, deduplicated keeping first occurrences (also across
the existing tags); a scalar region is normalized like a one-element
list, and absent fields contribute nothing. -/
theorem tag_merge_order (existing : List String) (g1 g2 r1 e : String)
    (ai : ResultMap) (t : Track)
    (h : ai (trackKey t.metadata) = some ⟨some [g1, g2], some (.many [r1]), some e⟩) :
    reconcileTrack ai t = .wrote (dedupFirst [g1, g2, r1, e]) ∧
    update_genre_tag existing (dedupFirst [g1, g2, r1, e]) =
      dedupFirst (existing ++ [g1, g2, r1, e]) ∧
    (∀ (gs : Option (List String)) (er : Option String) (s : String),
      flattenTags ⟨gs, some (.one s), er⟩ = flattenTags ⟨gs, some (.many [s]), er⟩) ∧
    flattenTags ⟨none, some (.many [r1]), some e⟩ = [r1, e] ∧
    flattenTags ⟨some [g1, g2], none, some e⟩ = [g1, g2, e] ∧
    flattenTags ⟨some [g1, g2], some (.many [r1]), none⟩ = [g1, g2, r1] := by
  refine ⟨?_, ?_, ?_, rfl, rfl, rfl⟩
  · simp [reconcileTrack, h, flattenTags]
  · exact dedupFirst_append_dedupFirst existing [g1, g2, r1, e]
  · intro gs er s
    simp [flattenTags]

/-- Witness for C3 at a concrete track, mapping and existing tag list. -/
theorem tag_merge_order_witness :
    reconcileTrack
        (fun k => if k = "A - X" then
          some ⟨some ["House", "Techno"], some (.many ["US"]), some "90s"⟩ else none)
        ⟨"a.mp3", ⟨some "A", none, some "X"⟩⟩ =
      .wrote (dedupFirst ["House", "Techno", "US", "90s"]) ∧
    update_genre_tag ["Old", "House"] (dedupFirst ["House", "Techno", "US", "90s"]) =
      dedupFirst (["Old", "House"] ++ ["House", "Techno", "US", "90s"]) ∧
    (∀ (gs : Option (List String)) (er : Option String) (s : String),
      flattenTags ⟨gs, some (.one s), er⟩ = flattenTags ⟨gs, some (.many [s]), er⟩) ∧
    flattenTags ⟨none, some (.many ["US"]), some "90s"⟩ = ["US", "90s"] ∧
    flattenTags ⟨some ["House", "Techno"], none, some "90s"⟩ = ["House", "Techno", "90s"] ∧
    flattenTags ⟨some ["House", "Techno"], some (.many ["US"]), none⟩ =
      ["House", "Techno", "US"] :=
  tag_merge_order ["Old", "House"] "House" "Techno" "US" "90s" _ _ rfl

/-! ## Batching lemmas -/

/-- Concatenating the consecutive 10-slices of a list reproduces it. -/
theorem join_chunks : ∀ (n : Nat) (l : List Track), l.length ≤ 10 * n →
    ((List.range n).map (fun k => (l.drop (10 * k)).take 10)).flatten = l
  | 0, l, h => by
    have : l = [] := List.eq_nil_of_length_eq_zero (Nat.le_zero.mp h)
    simp [this]
  | n + 1, l, h => by
    rw [List.range_succ_eq_map]
    simp only [List.map_cons, List.map_map, List.flatten_cons, Nat.mul_zero, List.drop_zero]
    have hmap : (List.range n).map ((fun k => (l.drop (10 * k)).take 10) ∘ Nat.succ) =
        (List.range n).map (fun k => ((l.drop 10).drop (10 * k)).take 10) := by
      refine List.map_congr_left (fun k _ => ?_)
      simp only [Function.comp_apply, List.drop_drop]
      have h10 : 10 + 10 * k = 10 * Nat.succ k := by omega
      rw [h10]
    rw [hmap, join_chunks n (l.drop 10) (by simp only [List.length_drop]; omega)]
    exact List.take_append_drop 10 l

/-- The ceiling count written in `main` is the usual `⌈N/10⌉`. -/
theorem totalBatches_eq (tracks : List Track) :
    totalBatches tracks = (tracks.length + 9) / 10 := by
  simp only [totalBatches, batchSize]
  omega

/-- C1: with `batch_size = 10`, `main` produces `⌈N/10⌉` batches, each of
at most 10 tracks, numbered consecutively from 1; concatenating the
batches' contents in batch order reproduces the input track list exactly,
and an empty input produces zero batches. -/
theorem batching_lossless (tracks : List Track) :
    (makeBatches tracks).length = (tracks.length + 9) / 10 ∧
    (makeBatches tracks).all (fun b => b.1.length ≤ 10) = true ∧
    (makeBatches tracks).map Prod.snd =
      (List.range ((tracks.length + 9) / 10)).map (fun k => k + 1) ∧
    ((makeBatches tracks).map Prod.fst).flatten = tracks ∧
    makeBatches ([] : List Track) = [] := by
  refine ⟨?_, ?_, ?_, ?_, ?_⟩
  · simp [makeBatches, totalBatches_eq]
  · simp only [List.all_eq_true, makeBatches, List.mem_map, List.mem_range]
    rintro b ⟨k, _, rfl⟩
    simp only [decide_eq_true_eq, List.length_take, batchSize]
    omega
  · rw [← totalBatches_eq]
    simp [makeBatches, List.map_map, Function.comp_def]
  · simp only [makeBatches, List.map_map, Function.comp_def, totalBatches_eq, batchSize]
    exact join_chunks _ tracks (by omega)
  · simp [makeBatches, totalBatches, batchSize]

/-! ## Retry-loop lemmas -/

/-- The `except` handler on a retryable rate limit: sleep and continue. -/
theorem gcmStep_retry (regexMs : String → Option Nat) (jitter : Nat → ℚ) (attempt : Nat)
    (e : String) (rest : Unit → GcmRun)
    (h1 : rateLimited e = true) (h2 : attempt < maxRetries - 1) :
    gcmStep regexMs jitter attempt e rest =
      ⟨(rest ()).result,
       (match suggestedWait regexMs e with
         | some s => max (baseDelay * 2 ^ attempt + jitter attempt) s
         | none => baseDelay * 2 ^ attempt + jitter attempt) :: (rest ()).waits,
       (rest ()).calls + 1⟩ := by
  simp only [gcmStep, h1, if_true, if_pos h2]

/-- The `except` handler otherwise: return the empty mapping at once. -/
theorem gcmStep_stop (regexMs : String → Option Nat) (jitter : Nat → ℚ) (attempt : Nat)
    (e : String) (rest : Unit → GcmRun)
    (h : rateLimited e = false ∨ ¬ attempt < maxRetries - 1) :
    gcmStep regexMs jitter attempt e rest = ⟨[], [], 1⟩ := by
  rcases h with h | h
  · simp only [gcmStep, h, Bool.false_eq_true, if_false]
  · simp only [gcmStep, if_neg h]
    by_cases hr : rateLimited e <;> simp [hr]

/-- At most one completion call per loop iteration. -/
theorem gcmGo_calls_le (trace : Nat → Outcome) (parse : String → Except String Dict)
    (regexMs : String → Option Nat) (jitter : Nat → ℚ) :
    ∀ (fuel attempt : Nat), (gcmGo trace parse regexMs jitter fuel attempt).calls ≤ fuel
  | 0, _ => Nat.le_refl 0
  | fuel + 1, attempt => by
    have step : ∀ e, (gcmStep regexMs jitter attempt e
        (fun _ => gcmGo trace parse regexMs jitter fuel (attempt + 1))).calls ≤ fuel + 1 := by
      intro e
      by_cases h1 : rateLimited e
      · by_cases h2 : attempt < maxRetries - 1
        · rw [gcmStep_retry _ _ _ _ _ h1 h2]
          exact Nat.succ_le_succ (gcmGo_calls_le trace parse regexMs jitter fuel (attempt + 1))
        · rw [gcmStep_stop _ _ _ _ _ (Or.inr h2)]
          exact Nat.succ_le_succ (Nat.zero_le fuel)
      · rw [gcmStep_stop _ _ _ _ _ (Or.inl (Bool.eq_false_iff.mpr h1))]
        exact Nat.succ_le_succ (Nat.zero_le fuel)
    cases htr : trace attempt with
    | failure e =>
      simp only [gcmGo, htr]
      exact step e
    | success text =>
      simp only [gcmGo, htr]
      cases hex : extractJson (pyStrip text) with
      | none => exact Nat.succ_le_succ (Nat.zero_le fuel)
      | some sub =>
        dsimp only
        cases hp : parse sub with
        | ok m => exact Nat.succ_le_succ (Nat.zero_le fuel)
        | error emsg => exact step emsg

/-- At most `4 - attempt` sleeps happen from iteration `attempt` on. -/
theorem gcmGo_waits_len (trace : Nat → Outcome) (parse : String → Except String Dict)
    (regexMs : String → Option Nat) (jitter : Nat → ℚ) :
    ∀ (fuel attempt : Nat),
      (gcmGo trace parse regexMs jitter fuel attempt).waits.length ≤ (maxRetries - 1) - attempt
  | 0, _ => Nat.zero_le _
  | fuel + 1, attempt => by
    have step : ∀ e, (gcmStep regexMs jitter attempt e
        (fun _ => gcmGo trace parse regexMs jitter fuel (attempt + 1))).waits.length ≤
          (maxRetries - 1) - attempt := by
      intro e
      by_cases h1 : rateLimited e
      · by_cases h2 : attempt < maxRetries - 1
        · rw [gcmStep_retry _ _ _ _ _ h1 h2]
          have := gcmGo_waits_len trace parse regexMs jitter fuel (attempt + 1)
          simp only [List.length_cons]
          omega
        · rw [gcmStep_stop _ _ _ _ _ (Or.inr h2)]
          exact Nat.zero_le _
      · rw [gcmStep_stop _ _ _ _ _ (Or.inl (Bool.eq_false_iff.mpr h1))]
        exact Nat.zero_le _
    cases htr : trace attempt with
    | failure e =>
      simp only [gcmGo, htr]
      exact step e
    | success text =>
      simp only [gcmGo, htr]
      cases hex : extractJson (pyStrip text) with
      | none => exact Nat.zero_le _
      | some sub =>
        dsimp only
        cases hp : parse sub with
        | ok m => exact Nat.zero_le _
        | error emsg => exact step emsg

/-- The `j`-th sleep of the loop entered at iteration `attempt` is the
wait of attempt `attempt + j`, as worded by the specification. -/
theorem gcmGo_waits_get (trace : Nat → Outcome) (parse : String → Except String Dict)
    (regexMs : String → Option Nat) (jitter : Nat → ℚ) :
    ∀ (fuel attempt j : Nat), j < (gcmGo trace parse regexMs jitter fuel attempt).waits.length →
      (gcmGo trace parse regexMs jitter fuel attempt).waits[j]? =
        some (claimWait trace parse regexMs jitter (attempt + j))
  | 0, attempt, j => by
    intro h
    simp only [gcmGo, List.length_nil] at h
    omega
  | fuel + 1, attempt, j => by
    intro h
    have step : ∀ e, attemptErrorStr trace parse attempt = some e →
        gcmStep regexMs jitter attempt e
            (fun _ => gcmGo trace parse regexMs jitter fuel (attempt + 1)) =
          gcmGo trace parse regexMs jitter (fuel + 1) attempt →
        (gcmGo trace parse regexMs jitter (fuel + 1) attempt).waits[j]? =
          some (claimWait trace parse regexMs jitter (attempt + j)) := by
      intro e herr hstep
      by_cases h1 : rateLimited e
      · by_cases h2 : attempt < maxRetries - 1
        · rw [← hstep, gcmStep_retry _ _ _ _ _ h1 h2]
          rw [← hstep, gcmStep_retry _ _ _ _ _ h1 h2] at h
          cases j with
          | zero =>
            simp only [List.getElem?_cons_zero, Nat.add_zero, claimWait, herr,
              Option.getD_some]
          | succ j =>
            simp only [List.getElem?_cons_succ]
            simp only [List.length_cons, Nat.succ_lt_succ_iff] at h
            have := gcmGo_waits_get trace parse regexMs jitter fuel (attempt + 1) j h
            rw [this]
            have harith : attempt + 1 + j = attempt + (j + 1) := by omega
            rw [harith]
        · rw [← hstep, gcmStep_stop _ _ _ _ _ (Or.inr h2)] at h
          simp only [List.length_nil] at h
          omega
      · rw [← hstep, gcmStep_stop _ _ _ _ _ (Or.inl (Bool.eq_false_iff.mpr h1))] at h
        simp only [List.length_nil] at h
        omega
    cases htr : trace attempt with
    | failure e =>
      refine step e ?_ ?_
      · simp only [attemptErrorStr, htr]
      · simp only [gcmGo, htr]
    | success text =>
      cases hex : extractJson (pyStrip text) with
      | none =>
        simp only [gcmGo, htr, hex, List.length_nil] at h
        omega
      | some sub =>
        cases hp : parse sub with
        | ok m =>
          simp only [gcmGo, htr, hex, hp, List.length_nil] at h
          omega
        | error emsg =>
          refine step emsg ?_ ?_
          · simp only [attemptErrorStr, htr, hex, hp]
          · simp only [gcmGo, htr, hex, hp]

/-- The returned mapping is either the parse of some attempt's successful
response, or the empty mapping. -/
theorem gcmGo_result_cases (trace : Nat → Outcome) (parse : String → Except String Dict)
    (regexMs : String → Option Nat) (jitter : Nat → ℚ) :
    ∀ (fuel attempt : Nat),
      (gcmGo trace parse regexMs jitter fuel attempt).result = [] ∨
      ∃ a, attempt ≤ a ∧ a < attempt + fuel ∧
        attemptParsed trace parse a = some (gcmGo trace parse regexMs jitter fuel attempt).result
  | 0, attempt => Or.inl rfl
  | fuel + 1, attempt => by
    have step : ∀ e,
        gcmStep regexMs jitter attempt e
            (fun _ => gcmGo trace parse regexMs jitter fuel (attempt + 1)) =
          gcmGo trace parse regexMs jitter (fuel + 1) attempt →
        (gcmGo trace parse regexMs jitter (fuel + 1) attempt).result = [] ∨
        ∃ a, attempt ≤ a ∧ a < attempt + (fuel + 1) ∧
          attemptParsed trace parse a =
            some (gcmGo trace parse regexMs jitter (fuel + 1) attempt).result := by
      intro e hstep
      by_cases h1 : rateLimited e
      · by_cases h2 : attempt < maxRetries - 1
        · rw [← hstep, gcmStep_retry _ _ _ _ _ h1 h2]
          rcases gcmGo_result_cases trace parse regexMs jitter fuel (attempt + 1) with h | h
          · exact Or.inl h
          · rcases h with ⟨a, ha1, ha2, ha3⟩
            exact Or.inr ⟨a, by omega, by omega, ha3⟩
        · rw [← hstep, gcmStep_stop _ _ _ _ _ (Or.inr h2)]
          exact Or.inl rfl
      · rw [← hstep, gcmStep_stop _ _ _ _ _ (Or.inl (Bool.eq_false_iff.mpr h1))]
        exact Or.inl rfl
    cases htr : trace attempt with
    | failure e =>
      refine step e ?_
      simp only [gcmGo, htr]
    | success text =>
      cases hex : extractJson (pyStrip text) with
      | none =>
        exact Or.inl (by simp only [gcmGo, htr, hex])
      | some sub =>
        cases hp : parse sub with
        | ok m =>
          simp only [gcmGo, htr, hex, hp]
          exact Or.inr ⟨attempt, Nat.le_refl attempt, by omega,
            by simp only [attemptParsed, htr, hex, hp]⟩
        | error emsg =>
          refine step emsg ?_
          simp only [gcmGo, htr, hex, hp]

/-- C2: for every outcome of the external calls, `get_chatgpt_metadata`
returns a mapping (it is a total function of the oracles — no exception
escapes its boundary): the returned mapping is either the parse of some
attempt's successful response, or empty; in particular when no attempt
yields a parsed response (any failure mode, including retry exhaustion),
the batch's contribution is the empty mapping. -/
theorem gcm_never_raises (trace : Nat → Outcome) (parse : String → Except String Dict)
    (regexMs : String → Option Nat) (jitter : Nat → ℚ) :
    ((get_chatgpt_metadata trace parse regexMs jitter).result = [] ∨
      ∃ a, a < maxRetries ∧
        attemptParsed trace parse a =
          some (get_chatgpt_metadata trace parse regexMs jitter).result) ∧
    ((∀ a, a < maxRetries → attemptParsed trace parse a = none) →
      (get_chatgpt_metadata trace parse regexMs jitter).result = []) := by
  have h := gcmGo_result_cases trace parse regexMs jitter maxRetries 0
  constructor
  · rcases h with h | ⟨a, _, ha2, ha3⟩
    · exact Or.inl h
    · exact Or.inr ⟨a, by omega, ha3⟩
  · intro hall
    rcases h with h | ⟨a, _, ha2, ha3⟩
    · exact h
    · rw [hall a (by omega)] at ha3
      cases ha3

/-- Witness for C2: a run whose five attempts all fail with a rate-limit
error resolves to the empty mapping. -/
theorem gcm_never_raises_witness :
    (get_chatgpt_metadata (fun _ => .failure "429") (fun _ => .error "x")
      (fun _ => none) (fun _ => 0)).result = [] :=
  (gcm_never_raises (fun _ => .failure "429") (fun _ => .error "x")
    (fun _ => none) (fun _ => 0)).2 (fun _ _ => rfl)

/-- C4 (amended): at most 5 attempts are made; each sleep is the maximum
of `base_delay * 2**attempt` plus the jitter and any server-suggested wait
parsed from that attempt's error message; and the sleeps are monotonically
non-decreasing when the jitter is absent *and no server-suggested wait
applies* (the original claim, without the second condition, is refuted by
`gcm_backoff_monotone_counterexample`). -/
theorem gcm_backoff_bounds (trace : Nat → Outcome) (parse : String → Except String Dict)
    (regexMs : String → Option Nat) (jitter : Nat → ℚ) :
    (get_chatgpt_metadata trace parse regexMs jitter).calls ≤ maxRetries ∧
    (get_chatgpt_metadata trace parse regexMs jitter).waits.length ≤ maxRetries - 1 ∧
    (∀ j, j < (get_chatgpt_metadata trace parse regexMs jitter).waits.length →
      (get_chatgpt_metadata trace parse regexMs jitter).waits[j]? =
        some (claimWait trace parse regexMs jitter j)) ∧
    ((∀ a, jitter a = 0) →
      (∀ a, suggestedWait regexMs ((attemptErrorStr trace parse a).getD "") = none) →
      (get_chatgpt_metadata trace parse regexMs jitter).waits.Pairwise (· ≤ ·)) := by
  refine ⟨gcmGo_calls_le trace parse regexMs jitter maxRetries 0, ?_, ?_, ?_⟩
  · exact gcmGo_waits_len trace parse regexMs jitter maxRetries 0
  · intro j hj
    have := gcmGo_waits_get trace parse regexMs jitter maxRetries 0 j hj
    rwa [Nat.zero_add] at this
  · intro h1 h2
    have hcw : ∀ a, claimWait trace parse regexMs jitter a = baseDelay * 2 ^ a := by
      intro a
      simp only [claimWait]
      rw [h2 a, h1 a, add_zero]
    rw [List.pairwise_iff_getElem]
    intro i k hi hk hik
    simp only [get_chatgpt_metadata] at hi hk ⊢
    have hgi := gcmGo_waits_get trace parse regexMs jitter maxRetries 0 i hi
    have hgk := gcmGo_waits_get trace parse regexMs jitter maxRetries 0 k hk
    rw [List.getElem?_eq_getElem hi] at hgi
    rw [List.getElem?_eq_getElem hk] at hgk
    have hvi : (gcmGo trace parse regexMs jitter maxRetries 0).waits[i] =
        claimWait trace parse regexMs jitter (0 + i) := Option.some.inj hgi
    have hvk : (gcmGo trace parse regexMs jitter maxRetries 0).waits[k] =
        claimWait trace parse regexMs jitter (0 + k) := Option.some.inj hgk
    rw [hvi, hvk, Nat.zero_add, Nat.zero_add, hcw i, hcw k]
    simp only [baseDelay, one_mul]
    exact pow_le_pow_right₀ one_le_two (Nat.le_of_lt hik)

/-- Witness for C4: on a run rejected five times with a bare 429 error,
the first sleep matches the specified formula and the sleeps are
monotonically non-decreasing. -/
theorem gcm_backoff_bounds_witness :
    (get_chatgpt_metadata (fun _ => .failure "rate_limit_exceeded") (fun _ => .error "x")
        (fun _ => none) (fun _ => 0)).waits[0]? =
      some (claimWait (fun _ => .failure "rate_limit_exceeded") (fun _ => .error "x")
        (fun _ => none) (fun _ => 0) 0) ∧
    (get_chatgpt_metadata (fun _ => .failure "rate_limit_exceeded") (fun _ => .error "x")
      (fun _ => none) (fun _ => 0)).waits.Pairwise (· ≤ ·) :=
  ⟨(gcm_backoff_bounds (fun _ => .failure "rate_limit_exceeded") (fun _ => .error "x")
      (fun _ => none) (fun _ => 0)).2.2.1 0 (by decide),
   (gcm_backoff_bounds (fun _ => .failure "rate_limit_exceeded") (fun _ => .error "x")
      (fun _ => none) (fun _ => 0)).2.2.2 (fun _ => rfl) (fun _ => rfl)⟩

/-- Counterexample to C4 as stated: with zero jitter, when the first
attempt's error message carries a server-suggested wait of 100 s, the
sleeps are `[100, 2, 4, 8]` — not monotonically non-decreasing. -/
theorem gcm_backoff_monotone_counterexample :
    (get_chatgpt_metadata c4xTrace (fun _ => .error "x") c4xRegex (fun _ => 0)).waits.length = 4 ∧
    ¬ (get_chatgpt_metadata c4xTrace (fun _ => .error "x") c4xRegex
        (fun _ => 0)).waits.Pairwise (· ≤ ·) := by
  have hw : (get_chatgpt_metadata c4xTrace (fun _ => .error "x") c4xRegex
      (fun _ => 0)).waits =
      [max (baseDelay * 2 ^ 0 + 0) (((100000 : Nat) : ℚ) / 1000),
       baseDelay * 2 ^ 1 + 0, baseDelay * 2 ^ 2 + 0, baseDelay * 2 ^ 3 + 0] := rfl
  constructor
  · rw [hw]
    rfl
  · intro h
    rw [hw] at h
    have h01 := (List.pairwise_cons.mp h).1 (baseDelay * 2 ^ 1 + 0) (by simp)
    have h100 : ((100000 : Nat) : ℚ) / 1000 ≤ baseDelay * 2 ^ 1 + 0 :=
      le_trans (le_max_right _ _) h01
    norm_num [baseDelay] at h100

/-- C5 (amended): on a successful completion call, the substring from the
first `{` to the last `}` of the stripped response is parsed as JSON;
when no such substring exists the batch resolves to the empty mapping
with no retry, and when parsing fails with an error message that contains
no rate-limit marker (`rate_limit_exceeded` / `429`) the batch likewise
resolves to the empty mapping with no retry.  (The original claim — a
parse failure is *never* retried — is refuted by
`gcm_parse_retry_counterexample`: a decode error whose message contains
`429` is classified as a rate limit and retried.) -/
theorem gcm_malformed_response (trace : Nat → Outcome) (parse : String → Except String Dict)
    (regexMs : String → Option Nat) (jitter : Nat → ℚ) (text : String)
    (h : trace 0 = .success text) :
    (extractJson (pyStrip text) = none →
      get_chatgpt_metadata trace parse regexMs jitter = ⟨[], [], 1⟩) ∧
    (∀ sub m, extractJson (pyStrip text) = some sub → parse sub = .ok m →
      get_chatgpt_metadata trace parse regexMs jitter = ⟨m, [], 1⟩) ∧
    (∀ sub emsg, extractJson (pyStrip text) = some sub → parse sub = .error emsg →
      rateLimited emsg = false →
      get_chatgpt_metadata trace parse regexMs jitter = ⟨[], [], 1⟩) := by
  have hgo : get_chatgpt_metadata trace parse regexMs jitter =
      gcmGo trace parse regexMs jitter (4 + 1) 0 := rfl
  refine ⟨?_, ?_, ?_⟩
  · intro hex
    rw [hgo]
    simp only [gcmGo, h, hex]
  · intro sub m hex hp
    rw [hgo]
    simp only [gcmGo, h, hex, hp]
  · intro sub emsg hex hp hrl
    rw [hgo]
    simp only [gcmGo, h, hex, hp]
    exact gcmStep_stop _ _ _ _ _ (Or.inl hrl)

/-- Witness for C5 at a concrete response with no JSON object and at one
whose substring fails to parse with a non-rate-limit message. -/
theorem gcm_malformed_response_witness :
    get_chatgpt_metadata (fun _ => .success "no data here")
      (fun _ => .error "x") (fun _ => none) (fun _ => 0) = ⟨[], [], 1⟩ ∧
    get_chatgpt_metadata (fun _ => .success "{x}")
      (fun _ => .error "Expecting value") (fun _ => none) (fun _ => 0) = ⟨[], [], 1⟩ :=
  ⟨(gcm_malformed_response (fun _ => .success "no data here") (fun _ => .error "x")
      (fun _ => none) (fun _ => 0) "no data here" rfl).1 rfl,
   (gcm_malformed_response (fun _ => .success "{x}") (fun _ => .error "Expecting value")
      (fun _ => none) (fun _ => 0) "{x}" rfl).2.2 "{x}" "Expecting value" rfl rfl rfl⟩

/-- Counterexample to C5 as stated: the first response's extracted
substring fails to parse, yet the run retries (two completion calls) and
returns the second attempt's non-empty parse — because the decode error's
rendered character position contains `429`, the shared `except` block
classifies the parse failure as a rate limit. -/
theorem gcm_parse_retry_counterexample :
    c5xTrace 0 = .success "{x}" ∧
    extractJson (pyStrip "{x}") = some "{x}" ∧
    c5xParse "{x}" = .error "Expecting value: line 1 column 430 (char 429)" ∧
    (get_chatgpt_metadata c5xTrace c5xParse (fun _ => none) (fun _ => 0)).calls = 2 ∧
    (get_chatgpt_metadata c5xTrace c5xParse (fun _ => none) (fun _ => 0)).result =
      [("k", ⟨some ["House"], none, none⟩)] :=
  ⟨rfl, rfl, rfl, rfl, rfl⟩

/-- C6: a batch whose resolution raises is caught by the collection loop
of `main` and contributes nothing — the final mapping is the one obtained
from the remaining batches alone, whatever completed before or after it —
and the run still reaches the per-track reconciliation loop, producing
one outcome for every input track. -/
theorem scheduler_error_isolated (pre post : List (Except String Dict)) (e : String)
    (tracks : List Track) :
    collectResults (pre ++ Except.error e :: post) = collectResults (pre ++ post) ∧
    (reconcileAll (collectResults (pre ++ Except.error e :: post)) tracks).length =
      tracks.length := by
  have hmerge : collectResults (pre ++ Except.error e :: post) =
      collectResults (pre ++ post) := by
    simp only [collectResults, List.foldl_append, List.foldl_cons]
  exact ⟨hmerge, by simp [reconcileAll]⟩

/-- C7: when two batches resolve the same track key to different values,
the final mapping holds the value of whichever batch merged last, in
either completion order, and the reconciliation loop still runs over
every track. -/
theorem merge_last_write_wins (k : String) (v1 v2 : TagResult) (h : v1 ≠ v2) :
    collectResults [Except.ok [(k, v1)], Except.ok [(k, v2)]] k = some v2 ∧
    collectResults [Except.ok [(k, v2)], Except.ok [(k, v1)]] k = some v1 ∧
    some v2 ≠ some v1 ∧
    (∀ tracks : List Track,
      (reconcileAll (collectResults [Except.ok [(k, v1)], Except.ok [(k, v2)]])
        tracks).length = tracks.length) := by
  refine ⟨?_, ?_, ?_, ?_⟩
  · simp [collectResults, mapUpdate, mapInsert]
  · simp [collectResults, mapUpdate, mapInsert]
  · intro hc
    exact h (Option.some.inj hc).symm
  · intro tracks
    simp [reconcileAll]

/-- Witness for C7 at two concrete distinct tag results. -/
theorem merge_last_write_wins_witness :
    collectResults [Except.ok [("A - X", ⟨some ["House"], none, none⟩)],
        Except.ok [("A - X", ⟨some ["Techno"], none, none⟩)]] "A - X" =
      some ⟨some ["Techno"], none, none⟩ ∧
    collectResults [Except.ok [("A - X", ⟨some ["Techno"], none, none⟩)],
        Except.ok [("A - X", ⟨some ["House"], none, none⟩)]] "A - X" =
      some ⟨some ["House"], none, none⟩ ∧
    some (⟨some ["Techno"], none, none⟩ : TagResult) ≠ some ⟨some ["House"], none, none⟩ ∧
    (∀ tracks : List Track,
      (reconcileAll (collectResults [Except.ok [("A - X", ⟨some ["House"], none, none⟩)],
        Except.ok [("A - X", ⟨some ["Techno"], none, none⟩)]]) tracks).length =
        tracks.length) :=
  merge_last_write_wins "A - X" ⟨some ["House"], none, none⟩
    ⟨some ["Techno"], none, none⟩ (by decide)

/-- C9: a path that is a regular file is returned as a one-element list,
bypassing both the audio-extension filter and the since-date filter —
whatever the filesystem says about its suffix or creation time and
whatever `since_date` is. -/
theorem find_audio_files_direct (fs : FileSystem) (path : String) (since : Option Int)
    (h : fs.isFile path = true) :
    find_audio_files fs path since = [path] := by
  simp only [find_audio_files, h, if_true]

/-- Witness for C9: a direct file argument with a non-audio suffix and a
since-date filter in force is still returned as-is. -/
theorem find_audio_files_direct_witness :
    find_audio_files
      ⟨fun _ => true, fun _ => false, fun _ => [], fun _ => ".txt", fun _ => none⟩
      "notes.txt" (some 12345) = ["notes.txt"] :=
  find_audio_files_direct
    ⟨fun _ => true, fun _ => false, fun _ => [], fun _ => ".txt", fun _ => none⟩
    "notes.txt" (some 12345) rfl

/-- C10: a file that parses as audio but carries none of the artist,
album or title tags yields `some` empty metadata dict (not `none`); a
falsy dict is then treated by `main` exactly like an unreadable file:
the file contributes no track (so it is excluded from batching), just as
with a `None` return of `MutagenFile`, and the reconciliation loop
produces no outcome for it. -/
theorem extract_metadata_no_tags (get : String → Option TagVal)
    (h : ∀ k ∈ artistKeys ++ albumKeys ++ titleKeys, get k = none) :
    extract_metadata (.audio get) = some emptyMetadata ∧
    (∀ files, buildTracks (fun _ => .audio get) files = []) ∧
    (∀ files, buildTracks (fun _ => .audio get) files =
      buildTracks (fun _ => .noFile) files) ∧
    (∀ (ai : ResultMap) files,
      reconcileAll ai (buildTracks (fun _ => .audio get) files) = []) := by
  have hart : orChain get artistKeys = none := by
    simp only [artistKeys] at h ⊢
    simp only [orChain, h "TPE1" (by simp), h "©ART" (by simp), h "ARTIST" (by simp),
      h "artist" (by simp)]
  have halb : orChain get albumKeys = none := by
    simp only [albumKeys] at h ⊢
    simp only [orChain, h "TALB" (by simp), h "©alb" (by simp), h "ALBUM" (by simp),
      h "album" (by simp)]
  have htit : orChain get titleKeys = none := by
    simp only [titleKeys] at h ⊢
    simp only [orChain, h "TIT2" (by simp), h "©nam" (by simp), h "TITLE" (by simp),
      h "title" (by simp)]
  have hext : extract_metadata (.audio get) = some emptyMetadata := by
    simp [extract_metadata, hart, halb, htit, emptyMetadata]
  have hbuild : ∀ files, buildTracks (fun _ => .audio get) files = [] := by
    intro files
    simp only [buildTracks, hext]
    exact List.filterMap_eq_nil_iff.mpr (fun fp _ => by simp [metaNonempty, emptyMetadata])
  refine ⟨hext, hbuild, ?_, ?_⟩
  · intro files
    rw [hbuild files]
    symm
    simp only [buildTracks, extract_metadata]
    exact List.filterMap_eq_nil_iff.mpr (fun fp _ => rfl)
  · intro ai files
    rw [hbuild files]
    rfl

/-- Witness for C10: the everywhere-`None` tag oracle. -/
theorem extract_metadata_no_tags_witness :
    extract_metadata (.audio (fun _ => none)) = some emptyMetadata ∧
    buildTracks (fun _ => .audio (fun _ => none)) ["a.mp3"] = [] ∧
    buildTracks (fun _ => .audio (fun _ => none)) ["a.mp3"] =
      buildTracks (fun _ => .noFile) ["a.mp3"] ∧
    reconcileAll (fun _ => none) (buildTracks (fun _ => .audio (fun _ => none)) ["a.mp3"]) = [] := by
  have h := extract_metadata_no_tags (fun _ => none) (fun _ _ => rfl)
  exact ⟨h.1, h.2.1 ["a.mp3"], h.2.2.1 ["a.mp3"], h.2.2.2 (fun _ => none) ["a.mp3"]⟩

end MusicTagger
